import Mathlib

/-!
Verification of the comparison engine of `store_proc_validator.py`
(a Streamlit stored-procedure output validator).

The embedding models:
* the four sidebar comparison settings (source lines 16-19) as a `Config` value;
* scalar spreadsheet cell values as the tagged union `Value`;
* the per-cell comparison `safe_equals` (lines 21-48), including Python's
  `float()` string parsing and `round()` (round-half-to-even), with finite
  floating-point numbers modelled as exact decimal fixed-point values
  `n / 10^e` (the binary round-off of IEEE doubles is not modelled; no
  claim depends on it);
* the sort-and-compare pipeline (lines 82-124): `sort_values` on the key
  columns, modelled as the stable lexicographic ascending sort with nulls
  last (pandas `na_position='last'` default; stability is exact for
  multi-column key lists, while pandas' single-column default
  `kind='quicksort'` gives no stability guarantee — see `sortRows`), the
  row-count warning, and the per-row mismatch loop with `.loc` indexing
  modelled as fallible list access.
-/

namespace StoreProcValidator

/-- Comparison settings from the sidebar (source lines 16-19).
`float_precision` is entered with bounds 1..10 and default 5. -/
structure Config where
  ignore_case : Bool
  ignore_whitespace : Bool
  float_precision : Nat
  treat_nulls_equal : Bool
deriving Repr, DecidableEq

/-- Scalar cell value of a dataset: null/missing (`None`), not-a-number
(`float('nan')` / `NaT`), boolean, integer, finite float, string, or
date/time.  A finite float is carried as its shortest decimal rendering
`m / 10^d`; a date/time cell is identified by its `str()` rendering. -/
inductive Value where
  | null
  | nan
  | bool (b : Bool)
  | int (n : Int)
  | float (m : Int) (d : Nat)
  | str (s : String)
  | datetime (s : String)
deriving Repr, DecidableEq

/-- Models `pd.isna` on a scalar: true exactly for missing values and NaN.
In particular `pd.isna("") = False`: an empty string is not null-like. -/
def pdIsna : Value → Bool
  | .null => true
  | .nan => true
  | _ => false

/-- Zero-pad a digit string on the left to width `d`. -/
def padZeros (s : String) (d : Nat) : String :=
  String.mk (List.replicate (d - s.length) '0' ++ s.data)

/-- Decimal rendering of the finite float `m / 10^d`, as produced by
Python `str()` on a float: always shows at least one fractional digit
(`str(2.0) = "2.0"`). -/
def floatRepr (m : Int) (d : Nat) : String :=
  let sign := if m < 0 then "-" else ""
  let a := m.natAbs
  let base := 10 ^ d
  if d = 0 then sign ++ toString (a / base) ++ ".0"
  else sign ++ toString (a / base) ++ "." ++ padZeros (toString (a % base)) d

/-- Python `str(val)` on a scalar, combined with the guard on line 29/30:
`str(val) if val is not None else ""`, so `None` yields the empty string.
`str(float('nan'))` is `"nan"`, booleans render as `"True"`/`"False"`. -/
def strOfVal : Value → String
  | .null => ""
  | .nan => "nan"
  | .bool b => if b then "True" else "False"
  | .int n => toString n
  | .float m d => floatRepr m d
  | .str s => s
  | .datetime s => s

/-- ASCII whitespace recognised by Python `str.strip()` (space, tab,
newline, carriage return, vertical tab, form feed; the Unicode-only
whitespace code points are not modelled). -/
def pyWs (c : Char) : Bool :=
  c == ' ' || c == '\t' || c == '\n' || c == '\r' || c.toNat == 11 || c.toNat == 12

/-- Python `str.strip()`: remove leading and trailing whitespace. -/
def stripChars (cs : List Char) : List Char :=
  ((cs.dropWhile pyWs).reverse.dropWhile pyWs).reverse

/-- ASCII lowering of one character, as done by `str.lower()` on the
ASCII range (Unicode case mapping is not modelled). -/
def lowerChar (c : Char) : Char :=
  if 'A' ≤ c ∧ c ≤ 'Z' then Char.ofNat (c.toNat + 32) else c

/-- Lines 29-38: stringify a cell (null becomes `""`), then strip
whitespace when `ignore_whitespace`, then lowercase when `ignore_case`. -/
def postProcess (cfg : Config) (v : Value) : String :=
  let s := strOfVal v
  let s := if cfg.ignore_whitespace then String.mk (stripChars s.data) else s
  if cfg.ignore_case then String.mk (s.data.map lowerChar) else s

/-- Result of a successful Python `float(str)` conversion: NaN, a signed
infinity, or a finite value, carried in exact decimal fixed point as
`n / 10^e` (not necessarily in lowest terms; all comparisons are by
value). -/
inductive PyFloat where
  | nan
  | inf (neg : Bool)
  | finite (n : Int) (e : Nat)
deriving Repr, DecidableEq

/-- NaN test on a parsed float (`pd.isna` on a Python float). -/
def pyIsnaF : PyFloat → Bool
  | .nan => true
  | _ => false

/-- Python `==` on two parsed floats: NaN compares unequal to everything,
infinities compare by sign, finite values by exact value
(`a/10^i = b/10^j  ↔  a·10^j = b·10^i`). -/
def pyEqF : PyFloat → PyFloat → Bool
  | .nan, _ => false
  | _, .nan => false
  | .inf a, .inf b => a == b
  | .finite a i, .finite b j => a * 10 ^ j == b * 10 ^ i
  | _, _ => false

/-- Read a CPython digit group: one digit, then digits optionally
separated by single underscores.  Returns the digits read and the rest of
the input; an underscore not followed by a digit is left in the rest
(making the whole conversion fail later, as in CPython). -/
def digitGroupAux (acc : List Char) : List Char → List Char × List Char
  | '_' :: c :: cs =>
    if c.isDigit then digitGroupAux (acc ++ [c]) cs else (acc, '_' :: c :: cs)
  | c :: cs =>
    if c.isDigit then digitGroupAux (acc ++ [c]) cs else (acc, c :: cs)
  | [] => (acc, [])

/-- A digit group must start with a digit. -/
def digitGroup : List Char → Option (List Char × List Char)
  | c :: cs => if c.isDigit then some (digitGroupAux [c] cs) else none
  | [] => none

/-- Numeric value of a digit list. -/
def digitsToNat (ds : List Char) : Nat :=
  ds.foldl (fun n c => n * 10 + (c.toNat - '0'.toNat)) 0

/-- Exact decimal value of an integer part / fractional part digit pair,
as mantissa and power-of-ten denominator exponent. -/
def mkDec (ip fp : List Char) : Int × Nat :=
  ((digitsToNat ip : Int) * 10 ^ fp.length + (digitsToNat fp : Int), fp.length)

/-- Mantissa of a float literal: `digits`, `digits.`, `digits.digits`, or
`.digits` (at least one digit overall). -/
def parseMantissa (cs : List Char) : Option ((Int × Nat) × List Char) :=
  match digitGroup cs with
  | some (ds, rest) =>
    match rest with
    | '.' :: rest2 =>
      match digitGroup rest2 with
      | some (fs, rest3) => some (mkDec ds fs, rest3)
      | none => some (mkDec ds [], rest2)
    | _ => some (mkDec ds [], rest)
  | none =>
    match cs with
    | '.' :: rest2 =>
      match digitGroup rest2 with
      | some (fs, rest3) => some (mkDec [] fs, rest3)
      | none => none
    | _ => none

/-- Exponent suffix: nothing, or `e`/`E` (already lowercased) with an
optional sign and a digit group, which must end the input. -/
def parseExpPart : List Char → Option Int
  | [] => some 0
  | 'e' :: rest =>
    let p : Bool × List Char :=
      match rest with
      | '+' :: r => (false, r)
      | '-' :: r => (true, r)
      | r => (false, r)
    match digitGroup p.2 with
    | some (ds, []) =>
      some (if p.1 then -(digitsToNat ds : Int) else (digitsToNat ds : Int))
    | _ => none
  | _ => none

/-- Scale the decimal value `m.1 / 10^m.2` by `10^ex`. -/
def applyExp (m : Int × Nat) (ex : Int) : Int × Nat :=
  if 0 ≤ ex then (m.1 * 10 ^ ex.toNat, m.2) else (m.1, m.2 + ex.natAbs)

/-- Body of `float()` after the optional sign was removed; the input has
already been stripped and lowercased.  Recognises the keywords `inf`,
`infinity` and `nan`, else a decimal literal with optional exponent. -/
def parseAfterSign (neg : Bool) (cs : List Char) : Option PyFloat :=
  if cs = "inf".data ∨ cs = "infinity".data then some (.inf neg)
  else if cs = "nan".data then some .nan
  else
    match parseMantissa cs with
    | none => none
    | some (q, rest) =>
      match parseExpPart rest with
      | none => none
      | some e =>
        let mag := applyExp q e
        some (.finite (if neg then -mag.1 else mag.1) mag.2)

/-- Python `float(s)` on a string: strips whitespace, handles an optional
sign, then parses a float literal or keyword.  Returns `none` when CPython
would raise `ValueError`.  (Exponents are kept exact: the overflow of
huge literals to `inf` is not modelled; no claim depends on it.) -/
def pyFloatParse (s : String) : Option PyFloat :=
  let cs := (stripChars s.data).map lowerChar
  match cs with
  | '+' :: rest => parseAfterSign false rest
  | '-' :: rest => parseAfterSign true rest
  | rest => parseAfterSign false rest

/-- Line 41/42: `float(str) if str else float('nan')` — an empty string
short-circuits to NaN without attempting a conversion; `none` models a
raised `ValueError`. -/
def tryNum (s : String) : Option PyFloat :=
  if s = "" then some .nan else pyFloatParse s

/-- Python `round(x, p)` on a parsed float: NaN and infinities are fixed
points; a finite value `n / 10^e` with more than `p` fractional digits is
rounded to `p` digits, ties to even (the rounding of Python's built-in
`round`); with at most `p` digits it is already exact. -/
def pyRound (p : Nat) : PyFloat → PyFloat
  | .nan => .nan
  | .inf b => .inf b
  | .finite n e =>
    if e ≤ p then .finite n e
    else
      let d : Int := 10 ^ (e - p)
      let q := n.fdiv d
      let r := n.fmod d
      .finite (if 2 * r < d then q
               else if d < 2 * r then q + 1
               else if q % 2 = 0 then q else q + 1) p

/-- Lines 21-48, `safe_equals(val1, val2)`: the per-cell comparison with
the settings applied.  Null handling first (when `treat_nulls_equal`),
then stringify/strip/lower, then the numeric attempt (both sides parse
and neither is NaN), else exact string equality.  A failed `float()`
conversion jumps to the string comparison (the `except` on line 45). -/
def safe_equals (cfg : Config) (val1 val2 : Value) : Bool :=
  if cfg.treat_nulls_equal && (pdIsna val1 && pdIsna val2) then true
  else if cfg.treat_nulls_equal && (pdIsna val1 || pdIsna val2) then false
  else
    let str1 := postProcess cfg val1
    let str2 := postProcess cfg val2
    match tryNum str1, tryNum str2 with
    | some num1, some num2 =>
      if !pyIsnaF num1 && !pyIsnaF num2 then
        pyEqF (pyRound cfg.float_precision num1) (pyRound cfg.float_precision num2)
      else str1 == str2
    | _, _ => str1 == str2

/-- The sidebar defaults (lines 16-19): ignore case, ignore whitespace,
precision 5, treat nulls equal. -/
def defaultCfg : Config :=
  { ignore_case := true, ignore_whitespace := true,
    float_precision := 5, treat_nulls_equal := true }

example : safe_equals defaultCfg (.str "1.000001") (.str "1.000002") = true := by decide
example : safe_equals defaultCfg (.str "1.00001") (.str "1.00002") = false := by decide
example : safe_equals defaultCfg (.str " Foo ") (.str "foo") = true := by decide
example : safe_equals defaultCfg (.str "12") (.str "12a") = false := by decide
example : safe_equals defaultCfg (.str "10.00") (.str "10") = true := by decide
example : safe_equals defaultCfg .null (.str "x") = false := by decide
example : safe_equals defaultCfg (.str "") .null = false := by decide
example : safe_equals defaultCfg (.str "") (.str "") = true := by decide
example : safe_equals defaultCfg (.str "nan") (.str "nan") = true := by decide
example : pyFloatParse "nan" = some .nan := by decide
example : pyFloatParse "1_0.5e1" = some (.finite 1050 1) := by decide
example : pyFloatParse "1_.5" = none := by decide
example : pyFloatParse "" = none := by decide
example : pyFloatParse "-inf" = some (.inf true) := by decide
example : pyFloatParse "2.5e-2" = some (.finite 25 3) := by decide

/-! ## Rows, datasets and the key ordering -/

/-- A row: a mapping from column name to scalar cell value, kept in
column order. -/
abbrev Row := List (String × Value)

/-- Cell access `row[col]` (pandas `.loc[idx, col]`).  The engine only
reads columns that are present in the row (key columns and common
columns of well-formed datasets); the `.nan` default for an absent
column is never exercised by the pipeline theorems. -/
def rowGet (r : Row) (c : String) : Value :=
  match r.find? (fun p => p.1 == c) with
  | some p => p.2
  | none => .nan

/-- A tabular dataset: ordered column names and ordered rows. -/
structure Dataset where
  cols : List String
  rows : List Row
deriving Repr, DecidableEq

/-- Three-way comparison induced by a linear order. -/
def cmpLin {α : Type} [LinearOrder α] (a b : α) : Ordering :=
  if a < b then .lt else if a = b then .eq else .gt

/-- Ordering rank of a cell for the sort: values of the same kind compare
by their natural ordering (below); null-like values rank above every
ordinary value, which realises the pandas `na_position='last'` default
of `sort_values`. -/
def rankOf : Value → Nat
  | .bool _ => 0
  | .int _ => 1
  | .float _ _ => 2
  | .str _ => 3
  | .datetime _ => 4
  | .null => 5
  | .nan => 6

/-- Numeric payload of a cell as decimal fixed point (mantissa, power of
ten): booleans as 0/1, integers and floats by value; other kinds carry 0
and are distinguished by rank or by their character payload. -/
def numOf : Value → Int × Nat
  | .bool b => (if b then 1 else 0, 0)
  | .int n => (n, 0)
  | .float m d => (m, d)
  | _ => (0, 0)

/-- Character payload of a cell: strings and date/times compare
lexicographically by code point. -/
def charsOf : Value → List Char
  | .str s => s.data
  | .datetime s => s.data
  | _ => []

/-- Three-way comparison of two decimal fixed-point values by exact
value: `a/10^i` against `b/10^j` via cross multiplication. -/
def cmpNum (p q : Int × Nat) : Ordering :=
  cmpLin (p.1 * 10 ^ q.2) (q.1 * 10 ^ p.2)

/-- Lexicographic three-way comparison of code-point lists. -/
def cmpChars : List Char → List Char → Ordering
  | [], [] => .eq
  | [], _ :: _ => .lt
  | _ :: _, [] => .gt
  | a :: as, b :: bs => (cmpLin a b).then (cmpChars as bs)

/-- Three-way comparison of two cells for sorting: by rank (null-like
last), then numerically, then lexicographically. -/
def cmpCell (v1 v2 : Value) : Ordering :=
  (cmpLin (rankOf v1) (rankOf v2)).then
    ((cmpNum (numOf v1) (numOf v2)).then (cmpChars (charsOf v1) (charsOf v2)))

/-- Lexicographic comparison of two rows by the ordered key-column list
(`sort_values(by=sort_cols)`: order of `by` matters). -/
def keyCmp (sort_cols : List String) (r1 r2 : Row) : Ordering :=
  match sort_cols with
  | [] => .eq
  | c :: rest => (cmpCell (rowGet r1 c) (rowGet r2 c)).then (keyCmp rest r1 r2)

/-- Non-strict key order used by the sort. -/
def keyLe (sort_cols : List String) (r1 r2 : Row) : Bool :=
  match keyCmp sort_cols r1 r2 with
  | .gt => false
  | _ => true

/-- Line 85/86, `df.sort_values(by=sort_cols)`: ascending sort of the
rows by the key columns with null keys last (`na_position` defaults to
`'last'`).  For a multi-column `by` list pandas sorts with a stable
lexicographic sort; for a single-column `by` it defaults to numpy's
`kind='quicksort'`, which is documented as not stable, so the relative
order of rows with tied keys is then unspecified.  The model uses
insertion sort, i.e. the unique stable ordering the specification
prescribes: exact for multi-column key lists, while the possible
reordering of tied rows by the single-key quicksort path is a divergence
of the code from the specified stability and is not captured here.
`reset_index(drop=True)` is the identity in this positional model. -/
def sortRows (sort_cols : List String) (rows : List Row) : List Row :=
  rows.insertionSort (fun r1 r2 => keyLe sort_cols r1 r2 = true)

/-! ## The comparison pipeline (lines 82-124) -/

/-- Why a run produced no `ComparisonResult`: no key column selected
(line 174/175 just shows a prompt and never compares), a `KeyError`
raised by `sort_values` for a key column absent from a dataset, or an
out-of-range `.loc` row access (proved unreachable). -/
inductive RunError where
  | noKeySelected
  | keyError (c : String)
  | indexError
deriving Repr, DecidableEq

/-- One mismatch row of `mismatch_report` (lines 104-119): the 1-based
`"Row"` entry, the `"Key_<col>"` entries taken from the baseline row, and
the `"Old_<col>"`/`"New_<col>"` pairs for the differing columns only. -/
structure MismatchRecord where
  row : Nat
  keyValues : List (String × Value)
  fieldDiffs : List (String × Value × Value)
deriving Repr, DecidableEq

/-- The comparison output consumed by the dashboard: the row-count
warning flag (line 91/92), the mismatch report, and the set of mismatched
columns (deduplicated). -/
structure Output where
  rowCountWarning : Bool
  mismatch_report : List MismatchRecord
  mismatched_columns : List String
deriving Repr, DecidableEq

/-- Line 94: `common_cols = list(set(df_old) & set(df_new))`.  Python's
set iteration order is unspecified; the intersection is modelled in
baseline column order. -/
def commonCols (df_old df_new : Dataset) : List String :=
  df_old.cols.filter (fun c => df_new.cols.contains c)

/-- Lines 109-116: scan the common columns of one aligned row pair and
collect the `(column, old, new)` triples on which `safe_equals` fails. -/
def rowDiffs (cfg : Config) (common_cols : List String) (ra rb : Row) :
    List (String × Value × Value) :=
  common_cols.filterMap (fun c =>
    if safe_equals cfg (rowGet ra c) (rowGet rb c) then none
    else some (c, rowGet ra c, rowGet rb c))

/-- One iteration of the loop body (lines 104-119) at row position `idx`:
`.loc` row access is fallible (`none` models an uncaught `KeyError` /
out-of-range lookup); a row with no differing column yields no record. -/
def recordAt (cfg : Config) (sort_cols common_cols : List String)
    (rowsA rowsB : List Row) (idx : Nat) : Option (Option MismatchRecord) :=
  match rowsA[idx]?, rowsB[idx]? with
  | some ra, some rb =>
    let diffs := rowDiffs cfg common_cols ra rb
    some (if diffs.isEmpty then none
          else some { row := idx + 1,
                      keyValues := sort_cols.map (fun c => (c, rowGet ra c)),
                      fieldDiffs := diffs })
  | _, _ => none

/-- The loop `for idx in range(min(len(A), len(B)))` (line 99), counting
down the remaining iterations; records are appended in row order.  The
progress-bar updates (lines 100-102, 121) are advisory only and are not
modelled. -/
def loopAux (cfg : Config) (sort_cols common_cols : List String)
    (rowsA rowsB : List Row) : Nat → Nat → Option (List MismatchRecord)
  | 0, _ => some []
  | n + 1, idx =>
    match recordAt cfg sort_cols common_cols rowsA rowsB idx with
    | none => none
    | some mrec =>
      match loopAux cfg sort_cols common_cols rowsA rowsB n (idx + 1) with
      | none => none
      | some rest => some (match mrec with | none => rest | some r => r :: rest)

/-- Line 85/86 as a fallible operation: `df.sort_values(by=sort_cols)`
raises `KeyError` when a requested key column is absent from the
dataset's schema; otherwise it returns the stably sorted rows. -/
def sortValues (d : Dataset) (sort_cols : List String) : Except RunError (List Row) :=
  match sort_cols.find? (fun c => !(d.cols.contains c)) with
  | some c => .error (.keyError c)
  | none => .ok (sortRows sort_cols d.rows)

/-- Lines 82-124, the full comparison run: reject an empty key selection
(line 174/175), sort both datasets by the key columns (lines 85/86,
fallible), record the row-count warning (lines 91/92), then run the
cell-by-cell loop over the first `min(len(A), len(B))` row positions
(lines 99-119) and collect the mismatch report. -/
def runValidator (cfg : Config) (sort_cols : List String) (df_old df_new : Dataset) :
    Except RunError Output :=
  if sort_cols.isEmpty then .error .noKeySelected
  else do
    let rowsOld ← sortValues df_old sort_cols
    let rowsNew ← sortValues df_new sort_cols
    let warn := rowsOld.length != rowsNew.length
    match loopAux cfg sort_cols (commonCols df_old df_new) rowsOld rowsNew
        (min rowsOld.length rowsNew.length) 0 with
    | none => .error .indexError
    | some report =>
      .ok { rowCountWarning := warn,
            mismatch_report := report,
            mismatched_columns := (report.map (fun r => r.fieldDiffs.map (fun d => d.1))).flatten.dedup }

/-! Concrete datasets used by the witnesses and counterexamples. -/

/-- Baseline dataset of the order-independence counterexample: two rows
sharing the key value `id = 1` but differing in `v`. -/
def dfCexA : Dataset :=
  { cols := ["id", "v"],
    rows := [[("id", .int 1), ("v", .str "a")], [("id", .int 1), ("v", .str "b")]] }

/-- The same row set as `dfCexA`, in the opposite input order. -/
def dfCexB : Dataset :=
  { cols := ["id", "v"],
    rows := [[("id", .int 1), ("v", .str "b")], [("id", .int 1), ("v", .str "a")]] }

example :
    (runValidator defaultCfg ["id"] dfCexA dfCexB).map (fun o => o.mismatch_report.length) =
      .ok 2 := rfl

example :
    (runValidator defaultCfg ["id"] dfCexA dfCexA).map (fun o => o.mismatch_report) =
      .ok [] := rfl

example : runValidator defaultCfg [] dfCexA dfCexB = .error .noKeySelected := rfl

example : runValidator defaultCfg ["zz"] dfCexA dfCexB = .error (.keyError "zz") := rfl

/-! ## Lawfulness of the three-way comparators

A comparator is lawful when it is antisymmetric under `Ordering.swap`,
transitive on strict results, and substitutive on `eq` results.  These
properties make the induced non-strict relation total and transitive,
which is what the sorting lemmas need. -/

/-- A well-behaved three-way comparator. -/
structure LawfulCmp {α : Type} (f : α → α → Ordering) : Prop where
  swap_eq : ∀ a b, f a b = (f b a).swap
  lt_trans : ∀ a b c, f a b = .lt → f b c = .lt → f a c = .lt
  eq_subst : ∀ a b, f a b = .eq → ∀ c, f a c = f b c

theorem LawfulCmp.congr {α : Type} {f g : α → α → Ordering}
    (hfg : ∀ a b, f a b = g a b) (hg : LawfulCmp g) : LawfulCmp f := by
  constructor
  · intro a b; rw [hfg, hfg]; exact hg.swap_eq a b
  · intro a b c h1 h2; rw [hfg] at h1 h2 ⊢; exact hg.lt_trans a b c h1 h2
  · intro a b h c; rw [hfg] at h; rw [hfg, hfg]; exact hg.eq_subst a b h c

theorem LawfulCmp.comap {α β : Type} {f : α → α → Ordering}
    (hf : LawfulCmp f) (h : β → α) : LawfulCmp (fun x y => f (h x) (h y)) :=
  ⟨fun a b => hf.swap_eq (h a) (h b),
   fun a b c => hf.lt_trans (h a) (h b) (h c),
   fun a b hab c => hf.eq_subst (h a) (h b) hab (h c)⟩

theorem LawfulCmp.eq_subst_right {α : Type} {f : α → α → Ordering}
    (hf : LawfulCmp f) {b c : α} (h : f b c = .eq) (a : α) : f a b = f a c := by
  rw [hf.swap_eq a b, hf.swap_eq a c, hf.eq_subst b c h a]

theorem LawfulCmp.refl_eq {α : Type} {f : α → α → Ordering}
    (hf : LawfulCmp f) (a : α) : f a a = .eq := by
  have h := hf.swap_eq a a
  cases ho : f a a with
  | lt => rw [ho] at h; exact absurd h (by decide)
  | eq => rfl
  | gt => rw [ho] at h; exact absurd h (by decide)

theorem LawfulCmp.gt_to_lt {α : Type} {f : α → α → Ordering}
    (hf : LawfulCmp f) {a b : α} (h : f a b = .gt) : f b a = .lt := by
  have hs := hf.swap_eq a b
  rw [h] at hs
  cases ho : f b a <;> rw [ho] at hs <;> first | rfl | exact absurd hs (by decide)

theorem LawfulCmp.le_trans' {α : Type} {f : α → α → Ordering}
    (hf : LawfulCmp f) {a b c : α} (h1 : f a b ≠ .gt) (h2 : f b c ≠ .gt) :
    f a c ≠ .gt := by
  cases hab : f a b with
  | gt => exact absurd hab h1
  | lt =>
    cases hbc : f b c with
    | gt => exact absurd hbc h2
    | lt => rw [hf.lt_trans a b c hab hbc]; decide
    | eq => rw [← hf.eq_subst_right hbc a, hab]; decide
  | eq =>
    cases hbc : f b c with
    | gt => exact absurd hbc h2
    | lt => rw [hf.eq_subst a b hab c, hbc]; decide
    | eq => rw [hf.eq_subst a b hab c, hbc]; decide

theorem LawfulCmp.antisymm_eq {α : Type} {f : α → α → Ordering}
    (hf : LawfulCmp f) {a b : α} (h1 : f a b ≠ .gt) (h2 : f b a ≠ .gt) :
    f a b = .eq := by
  cases hab : f a b with
  | eq => rfl
  | gt => exact absurd hab h1
  | lt =>
    exfalso
    apply h2
    have hs := hf.swap_eq b a
    rw [hab] at hs
    exact hs

theorem then_swap (o p : Ordering) : (o.then p).swap = o.swap.then p.swap := by
  cases o <;> rfl

theorem then_lt_iff (o p : Ordering) :
    o.then p = .lt ↔ o = .lt ∨ (o = .eq ∧ p = .lt) := by
  cases o <;> simp [Ordering.then]

theorem then_eq_iff (o p : Ordering) : o.then p = .eq ↔ o = .eq ∧ p = .eq := by
  cases o <;> simp [Ordering.then]

theorem LawfulCmp.then_comp {α : Type} {f g : α → α → Ordering}
    (hf : LawfulCmp f) (hg : LawfulCmp g) :
    LawfulCmp (fun a b => (f a b).then (g a b)) := by
  constructor
  · intro a b
    show (f a b).then (g a b) = ((f b a).then (g b a)).swap
    rw [then_swap, ← hf.swap_eq, ← hg.swap_eq]
  · intro a b c h1 h2
    rcases (then_lt_iff _ _).mp h1 with hab | ⟨hab, hg1⟩ <;>
      rcases (then_lt_iff _ _).mp h2 with hbc | ⟨hbc, hg2⟩
    · exact (then_lt_iff _ _).mpr (Or.inl (hf.lt_trans a b c hab hbc))
    · exact (then_lt_iff _ _).mpr (Or.inl (by rw [← hf.eq_subst_right hbc a]; exact hab))
    · exact (then_lt_iff _ _).mpr (Or.inl (by rw [hf.eq_subst a b hab c]; exact hbc))
    · exact (then_lt_iff _ _).mpr (Or.inr ⟨by rw [hf.eq_subst a b hab c]; exact hbc,
        hg.lt_trans a b c hg1 hg2⟩)
  · intro a b h c
    rcases (then_eq_iff _ _).mp h with ⟨h1, h2⟩
    show (f a c).then (g a c) = (f b c).then (g b c)
    rw [hf.eq_subst a b h1 c, hg.eq_subst a b h2 c]

theorem cmpLin_lt_iff {α : Type} [LinearOrder α] {a b : α} :
    cmpLin a b = .lt ↔ a < b := by
  unfold cmpLin
  split_ifs with h1 h2 <;> simp [h1]

theorem cmpLin_eq_iff {α : Type} [LinearOrder α] {a b : α} :
    cmpLin a b = .eq ↔ a = b := by
  unfold cmpLin
  split_ifs with h1 h2
  · simp [ne_of_lt h1]
  · simp [h2]
  · simp [h2]

theorem cmpLin_gt_iff {α : Type} [LinearOrder α] {a b : α} :
    cmpLin a b = .gt ↔ b < a := by
  unfold cmpLin
  split_ifs with h1 h2
  · simp [lt_asymm h1]
  · simp [h2, lt_irrefl]
  · have h3 : b < a := ((lt_trichotomy a b).resolve_left h1).resolve_left h2
    simp [h3]

theorem cmpLin_lawful {α : Type} [LinearOrder α] : LawfulCmp (cmpLin (α := α)) := by
  constructor
  · intro a b
    rcases lt_trichotomy a b with h | h | h
    · rw [cmpLin_lt_iff.mpr h, cmpLin_gt_iff.mpr h]; rfl
    · subst h; rw [cmpLin_eq_iff.mpr rfl]; rfl
    · rw [cmpLin_gt_iff.mpr h, cmpLin_lt_iff.mpr h]; rfl
  · intro a b c h1 h2
    exact cmpLin_lt_iff.mpr (lt_trans (cmpLin_lt_iff.mp h1) (cmpLin_lt_iff.mp h2))
  · intro a b h c
    rw [cmpLin_eq_iff.mp h]

/-- Exact rational value of a decimal fixed-point pair (proof-level
bridge; the executable comparisons stay in integer arithmetic). -/
def toQ (p : Int × Nat) : ℚ := (p.1 : ℚ) / 10 ^ p.2

theorem toQ_lt_iff {p q : Int × Nat} :
    toQ p < toQ q ↔ p.1 * 10 ^ q.2 < q.1 * 10 ^ p.2 := by
  unfold toQ
  rw [div_lt_div_iff₀ (by positivity) (by positivity)]
  norm_cast

theorem toQ_eq_iff {p q : Int × Nat} :
    toQ p = toQ q ↔ p.1 * 10 ^ q.2 = q.1 * 10 ^ p.2 := by
  unfold toQ
  rw [div_eq_div_iff (by positivity) (by positivity)]
  norm_cast

theorem cmpNum_eq_cmpLin (p q : Int × Nat) : cmpNum p q = cmpLin (toQ p) (toQ q) := by
  unfold cmpNum cmpLin
  by_cases h1 : toQ p < toQ q
  · rw [if_pos (toQ_lt_iff.mp h1), if_pos h1]
  · by_cases h2 : toQ p = toQ q
    · rw [if_neg (fun hc => h1 (toQ_lt_iff.mpr hc)), if_pos (toQ_eq_iff.mp h2),
        if_neg h1, if_pos h2]
    · rw [if_neg (fun hc => h1 (toQ_lt_iff.mpr hc)),
        if_neg (fun hc => h2 (toQ_eq_iff.mpr hc)), if_neg h1, if_neg h2]

theorem cmpNum_lawful : LawfulCmp cmpNum :=
  LawfulCmp.congr cmpNum_eq_cmpLin ((cmpLin_lawful (α := ℚ)).comap toQ)

theorem cmpChars_eq_iff : ∀ cs ds, cmpChars cs ds = .eq ↔ cs = ds := by
  intro cs
  induction cs with
  | nil => intro ds; cases ds <;> simp [cmpChars]
  | cons a as ih =>
    intro ds
    cases ds with
    | nil => simp [cmpChars]
    | cons b bs => simp [cmpChars, then_eq_iff, cmpLin_eq_iff, ih]

theorem cmpChars_swap : ∀ cs ds, cmpChars cs ds = (cmpChars ds cs).swap := by
  intro cs
  induction cs with
  | nil => intro ds; cases ds <;> rfl
  | cons a as ih =>
    intro ds
    cases ds with
    | nil => rfl
    | cons b bs =>
      show (cmpLin a b).then (cmpChars as bs) = ((cmpLin b a).then (cmpChars bs as)).swap
      rw [then_swap, ← cmpLin_lawful.swap_eq, ← ih bs]

theorem cmpChars_lt_trans :
    ∀ cs ds es, cmpChars cs ds = .lt → cmpChars ds es = .lt → cmpChars cs es = .lt := by
  intro cs
  induction cs with
  | nil =>
    intro ds es h1 h2
    cases ds with
    | nil => simp [cmpChars] at h1
    | cons d ds' =>
      cases es with
      | nil => simp [cmpChars] at h2
      | cons e es' => rfl
  | cons a as ih =>
    intro ds es h1 h2
    cases ds with
    | nil => simp [cmpChars] at h1
    | cons d ds' =>
      cases es with
      | nil => simp [cmpChars] at h2
      | cons e es' =>
        rcases (then_lt_iff _ _).mp h1 with had | ⟨had, h1'⟩ <;>
          rcases (then_lt_iff _ _).mp h2 with hde | ⟨hde, h2'⟩
        · exact (then_lt_iff _ _).mpr (Or.inl (cmpLin_lawful.lt_trans a d e had hde))
        · obtain rfl := cmpLin_eq_iff.mp hde
          exact (then_lt_iff _ _).mpr (Or.inl had)
        · obtain rfl := cmpLin_eq_iff.mp had
          exact (then_lt_iff _ _).mpr (Or.inl hde)
        · obtain rfl := cmpLin_eq_iff.mp had
          obtain rfl := cmpLin_eq_iff.mp hde
          exact (then_lt_iff _ _).mpr (Or.inr ⟨cmpLin_eq_iff.mpr rfl, ih ds' es' h1' h2'⟩)

theorem cmpChars_lawful : LawfulCmp cmpChars :=
  ⟨cmpChars_swap, cmpChars_lt_trans,
   fun a b h c => by rw [(cmpChars_eq_iff a b).mp h]⟩

theorem cmpCell_lawful : LawfulCmp cmpCell :=
  LawfulCmp.congr (fun _ _ => rfl)
    (((cmpLin_lawful (α := Nat)).comap rankOf).then_comp
      ((cmpNum_lawful.comap numOf).then_comp (cmpChars_lawful.comap charsOf)))

theorem keyCmp_lawful (sort_cols : List String) : LawfulCmp (keyCmp sort_cols) := by
  induction sort_cols with
  | nil =>
    refine ⟨fun a b => rfl, fun a b c h1 _ => ?_, fun a b _ c => rfl⟩
    simp [keyCmp] at h1
  | cons c rest ih =>
    exact LawfulCmp.congr (fun _ _ => rfl)
      ((cmpCell_lawful.comap (fun r => rowGet r c)).then_comp ih)

theorem keyLe_iff (sort_cols : List String) (r1 r2 : Row) :
    keyLe sort_cols r1 r2 = true ↔ keyCmp sort_cols r1 r2 ≠ .gt := by
  unfold keyLe
  cases keyCmp sort_cols r1 r2 <;> simp

theorem keyLe_total (sort_cols : List String) (r1 r2 : Row) :
    keyLe sort_cols r1 r2 = true ∨ keyLe sort_cols r2 r1 = true := by
  rcases h : keyCmp sort_cols r1 r2 with _ | _ | _
  · exact Or.inl ((keyLe_iff ..).mpr (by rw [h]; decide))
  · exact Or.inl ((keyLe_iff ..).mpr (by rw [h]; decide))
  · exact Or.inr ((keyLe_iff ..).mpr (by rw [(keyCmp_lawful sort_cols).gt_to_lt h]; decide))

theorem keyLe_trans (sort_cols : List String) {r1 r2 r3 : Row}
    (h1 : keyLe sort_cols r1 r2 = true) (h2 : keyLe sort_cols r2 r3 = true) :
    keyLe sort_cols r1 r3 = true :=
  (keyLe_iff ..).mpr ((keyCmp_lawful sort_cols).le_trans'
    ((keyLe_iff ..).mp h1) ((keyLe_iff ..).mp h2))

theorem keyLe_antisymm (sort_cols : List String) {r1 r2 : Row}
    (h1 : keyLe sort_cols r1 r2 = true) (h2 : keyLe sort_cols r2 r1 = true) :
    keyCmp sort_cols r1 r2 = .eq :=
  (keyCmp_lawful sort_cols).antisymm_eq ((keyLe_iff ..).mp h1) ((keyLe_iff ..).mp h2)

theorem LawfulCmp.eq_symm {α : Type} {f : α → α → Ordering}
    (hf : LawfulCmp f) {a b : α} (h : f a b = .eq) : f b a = .eq := by
  have hs := hf.swap_eq b a
  rw [h] at hs
  exact hs

theorem keyLe_refl (sort_cols : List String) (r : Row) : keyLe sort_cols r r = true :=
  (keyLe_iff ..).mpr (by rw [(keyCmp_lawful sort_cols).refl_eq]; decide)

theorem keyNe_symm (sort_cols : List String) :
    Symmetric (fun r1 r2 : Row => keyCmp sort_cols r1 r2 ≠ .eq) :=
  fun _ _ h hc => h ((keyCmp_lawful sort_cols).eq_symm hc)

/-! ## Properties of the modelled sort -/

theorem sortRows_perm (sort_cols : List String) (l : List Row) :
    List.Perm (sortRows sort_cols l) l :=
  List.perm_insertionSort _ l

theorem sortRows_sorted (sort_cols : List String) (l : List Row) :
    List.Sorted (fun r1 r2 => keyLe sort_cols r1 r2 = true) (sortRows sort_cols l) := by
  haveI : IsTotal Row (fun r1 r2 => keyLe sort_cols r1 r2 = true) :=
    ⟨fun a b => keyLe_total sort_cols a b⟩
  haveI : IsTrans Row (fun r1 r2 => keyLe sort_cols r1 r2 = true) :=
    ⟨fun _ _ _ h1 h2 => keyLe_trans sort_cols h1 h2⟩
  exact List.sorted_insertionSort _ l

theorem sortRows_stable (sort_cols : List String) {a b : Row} {l : List Row}
    (hab : keyLe sort_cols a b = true) (h : List.Sublist [a, b] l) :
    List.Sublist [a, b] (sortRows sort_cols l) :=
  List.pair_sublist_insertionSort hab h

/-- Two sorted permutations of each other whose key tuples are pairwise
non-equivalent are equal: with duplicate-free keys the stable sort result
is unique, no matter the input order. -/
theorem sorted_perm_pairwise_eq (sort_cols : List String) :
    ∀ l1 l2 : List Row, List.Perm l1 l2 →
      List.Sorted (fun r1 r2 => keyLe sort_cols r1 r2 = true) l1 →
      List.Sorted (fun r1 r2 => keyLe sort_cols r1 r2 = true) l2 →
      l1.Pairwise (fun r1 r2 => keyCmp sort_cols r1 r2 ≠ .eq) →
      l1 = l2 := by
  intro l1
  induction l1 with
  | nil => intro l2 hp _ _ _; exact hp.nil_eq
  | cons a t1 ih =>
    intro l2 hp hs1 hs2 hpw
    cases l2 with
    | nil => exact absurd hp.eq_nil (by simp)
    | cons b t2 =>
      have ha2 : a ∈ b :: t2 := hp.subset (List.mem_cons_self a t1)
      have hb1 : b ∈ a :: t1 := hp.symm.subset (List.mem_cons_self b t2)
      have hle_ab : keyLe sort_cols a b = true := by
        rcases List.mem_cons.mp hb1 with heq | hbt
        · rw [heq]; exact keyLe_refl sort_cols a
        · exact List.rel_of_sorted_cons hs1 b hbt
      have hle_ba : keyLe sort_cols b a = true := by
        rcases List.mem_cons.mp ha2 with heq | hat
        · rw [heq]; exact keyLe_refl sort_cols b
        · exact List.rel_of_sorted_cons hs2 a hat
      have heq : keyCmp sort_cols a b = .eq := keyLe_antisymm sort_cols hle_ab hle_ba
      have hb_eq : b = a := by
        rcases List.mem_cons.mp hb1 with h | hbt
        · exact h
        · exact absurd heq ((List.pairwise_cons.mp hpw).1 b hbt)
      subst hb_eq
      have hp' : List.Perm t1 t2 := hp.cons_inv
      rw [ih t2 hp' hs1.of_cons hs2.of_cons hpw.of_cons]

/-! ## Helper lemmas about the cell comparison and the loop -/

theorem pyEqF_refl {x : PyFloat} (h : pyIsnaF x = false) : pyEqF x x = true := by
  cases x with
  | nan => simp [pyIsnaF] at h
  | inf b => simp [pyEqF]
  | finite a i => simp [pyEqF]

theorem pyIsnaF_pyRound (p : Nat) (x : PyFloat) : pyIsnaF (pyRound p x) = pyIsnaF x := by
  cases x with
  | nan => rfl
  | inf b => rfl
  | finite n e => by_cases he : e ≤ p <;> simp [pyRound, pyIsnaF, he]

/-- `safe_equals` is reflexive: every cell equals itself under every
configuration. -/
theorem safe_equals_refl (cfg : Config) (v : Value) : safe_equals cfg v v = true := by
  unfold safe_equals
  by_cases hg1 : (cfg.treat_nulls_equal && (pdIsna v && pdIsna v)) = true
  · rw [if_pos hg1]
  · rw [if_neg hg1]
    have hg2 : ¬((cfg.treat_nulls_equal && (pdIsna v || pdIsna v)) = true) := by
      intro hc
      apply hg1
      revert hc
      cases cfg.treat_nulls_equal <;> cases pdIsna v <;> decide
    rw [if_neg hg2]
    rcases htr : tryNum (postProcess cfg v) with _ | n
    · simp [htr]
    · cases hn : pyIsnaF n with
      | false =>
        have hval : pyEqF (pyRound cfg.float_precision n) (pyRound cfg.float_precision n) = true :=
          pyEqF_refl (by rw [pyIsnaF_pyRound, hn])
        simp [htr, hn, hval]
      | true => simp [htr, hn]

theorem rowDiffs_self (cfg : Config) (common_cols : List String) (r : Row) :
    rowDiffs cfg common_cols r r = [] := by
  unfold rowDiffs
  rw [List.filterMap_eq_nil_iff]
  intro c _
  simp [safe_equals_refl]

/-- Membership in `rowDiffs`: exactly the common columns on which
`safe_equals` fails, with the cell values read from the two rows. -/
theorem mem_rowDiffs {cfg : Config} {common_cols : List String} {ra rb : Row}
    {c : String} {vo vn : Value} :
    (c, vo, vn) ∈ rowDiffs cfg common_cols ra rb ↔
      c ∈ common_cols ∧ safe_equals cfg (rowGet ra c) (rowGet rb c) = false ∧
        vo = rowGet ra c ∧ vn = rowGet rb c := by
  unfold rowDiffs
  rw [List.mem_filterMap]
  constructor
  · rintro ⟨c', hc', hx⟩
    by_cases hse : safe_equals cfg (rowGet ra c') (rowGet rb c') = true
    · rw [if_pos hse] at hx; cases hx
    · rw [if_neg hse] at hx
      have hx' : c' = c ∧ rowGet ra c' = vo ∧ rowGet rb c' = vn := by
        injection hx with h
        exact ⟨congrArg Prod.fst h, congrArg (fun p => p.2.1) h, congrArg (fun p => p.2.2) h⟩
      obtain ⟨rfl, rfl, rfl⟩ := hx'
      exact ⟨hc', Bool.eq_false_iff.mpr hse, rfl, rfl⟩
  · rintro ⟨hc, hse, rfl, rfl⟩
    exact ⟨c, hc, by rw [if_neg (by simp [hse])]⟩

/-- Shape of a successful run of the comparison loop: when `idx + n`
iterations fit inside both row lists, the loop succeeds (no out-of-range
`.loc` access), and every produced record carries a 1-based row position
in range, the key values of the baseline row at that position, and the
non-empty list of differing common columns of that row pair. -/
theorem loopAux_spec (cfg : Config) (sort_cols common_cols : List String)
    (a b : List Row) :
    ∀ n idx, idx + n ≤ min a.length b.length →
      ∃ rs, loopAux cfg sort_cols common_cols a b n idx = some rs ∧
        ∀ r ∈ rs, idx + 1 ≤ r.row ∧ r.row ≤ idx + n ∧
          ∃ ra rb, a[r.row - 1]? = some ra ∧ b[r.row - 1]? = some rb ∧
            r.keyValues = sort_cols.map (fun c => (c, rowGet ra c)) ∧
            r.fieldDiffs = rowDiffs cfg common_cols ra rb ∧
            r.fieldDiffs ≠ [] := by
  intro n
  induction n with
  | zero => intro idx _; exact ⟨[], rfl, by simp⟩
  | succ n ih =>
    intro idx h
    have hm : idx < min a.length b.length := by omega
    have hia : idx < a.length := lt_of_lt_of_le hm (min_le_left _ _)
    have hib : idx < b.length := lt_of_lt_of_le hm (min_le_right _ _)
    have hra : a[idx]? = some a[idx] := List.getElem?_eq_getElem hia
    have hrb : b[idx]? = some b[idx] := List.getElem?_eq_getElem hib
    obtain ⟨rs, hrs, hprop⟩ := ih (idx + 1) (by omega)
    have hrec : recordAt cfg sort_cols common_cols a b idx =
        some (if (rowDiffs cfg common_cols a[idx] b[idx]).isEmpty then none
              else some { row := idx + 1,
                          keyValues := sort_cols.map (fun c => (c, rowGet a[idx] c)),
                          fieldDiffs := rowDiffs cfg common_cols a[idx] b[idx] }) := by
      unfold recordAt
      rw [hra, hrb]
    by_cases hd : (rowDiffs cfg common_cols a[idx] b[idx]).isEmpty = true
    · refine ⟨rs, ?_, ?_⟩
      · simp only [loopAux, hrec, hrs, if_pos hd]
      · intro r hr
        obtain ⟨h1, h2, rest⟩ := hprop r hr
        exact ⟨by omega, by omega, rest⟩
    · refine ⟨{ row := idx + 1,
                keyValues := sort_cols.map (fun c => (c, rowGet a[idx] c)),
                fieldDiffs := rowDiffs cfg common_cols a[idx] b[idx] } :: rs, ?_, ?_⟩
      · simp only [loopAux, hrec, hrs, if_neg hd]
      · intro r hr
        rcases List.mem_cons.mp hr with hr0 | hr'
        · subst hr0
          have hne : rowDiffs cfg common_cols a[idx] b[idx] ≠ [] := by
            intro hnil
            rw [hnil] at hd
            exact hd rfl
          exact ⟨show idx + 1 ≤ idx + 1 from le_rfl,
                 show idx + 1 ≤ idx + (n + 1) by omega,
                 a[idx], b[idx],
                 show a[idx + 1 - 1]? = some a[idx] by simpa using hra,
                 show b[idx + 1 - 1]? = some b[idx] by simpa using hrb,
                 rfl, rfl, hne⟩
        · obtain ⟨h1, h2, rest⟩ := hprop r hr'
          exact ⟨by omega, by omega, rest⟩

/-- Comparing a list of rows against itself produces no records. -/
theorem loopAux_self (cfg : Config) (sort_cols common_cols : List String) (a : List Row) :
    ∀ n idx, idx + n ≤ a.length →
      loopAux cfg sort_cols common_cols a a n idx = some [] := by
  intro n
  induction n with
  | zero => intro idx _; rfl
  | succ n ih =>
    intro idx h
    have hia : idx < a.length := by omega
    have hra : a[idx]? = some a[idx] := List.getElem?_eq_getElem hia
    have hrec : recordAt cfg sort_cols common_cols a a idx = some none := by
      unfold recordAt
      rw [hra]
      simp [rowDiffs_self]
    simp only [loopAux, hrec, ih (idx + 1) (by omega)]

theorem sortValues_ok {d : Dataset} {sort_cols : List String}
    (h : ∀ c ∈ sort_cols, d.cols.contains c = true) :
    sortValues d sort_cols = .ok (sortRows sort_cols d.rows) := by
  unfold sortValues
  have hf : sort_cols.find? (fun c => !(d.cols.contains c)) = none :=
    List.find?_eq_none.mpr (fun c hc => by rw [h c hc]; decide)
  rw [hf]

theorem except_ok_bind {ε α β : Type} (a : α) (f : α → Except ε β) :
    (Except.ok (ε := ε) a >>= f) = f a := rfl

theorem isEmpty_false_of_ne_nil {α : Type} {l : List α} (h : l ≠ []) :
    l.isEmpty = false := by
  cases l with
  | nil => exact absurd rfl h
  | cons x xs => rfl

/-- Reduction of a run whose key selection is non-empty and whose key
columns exist in both schemas: both sorts succeed and the run reaches the
comparison loop. -/
theorem runValidator_reaches_loop (cfg : Config) (sort_cols : List String)
    (df_old df_new : Dataset) (hk : sort_cols ≠ [])
    (hA : ∀ c ∈ sort_cols, df_old.cols.contains c = true)
    (hB : ∀ c ∈ sort_cols, df_new.cols.contains c = true) :
    runValidator cfg sort_cols df_old df_new =
      (match loopAux cfg sort_cols (commonCols df_old df_new)
          (sortRows sort_cols df_old.rows) (sortRows sort_cols df_new.rows)
          (min (sortRows sort_cols df_old.rows).length
            (sortRows sort_cols df_new.rows).length) 0 with
      | none => .error .indexError
      | some report =>
        .ok { rowCountWarning :=
                (sortRows sort_cols df_old.rows).length !=
                  (sortRows sort_cols df_new.rows).length,
              mismatch_report := report,
              mismatched_columns :=
                (report.map (fun r => r.fieldDiffs.map (fun d => d.1))).flatten.dedup }) := by
  unfold runValidator
  rw [if_neg (by rw [isEmpty_false_of_ne_nil hk]; decide)]
  simp only [sortValues_ok hA, sortValues_ok hB, except_ok_bind]

theorem except_error_bind {ε α β : Type} (e : ε) (f : α → Except ε β) :
    (Except.error (α := α) e >>= f) = .error e := rfl

theorem pdIsna_null : pdIsna .null = true := rfl

theorem pyFloatParse_nil : pyFloatParse "" = none := rfl

theorem postProcess_null (cfg : Config) : postProcess cfg .null = "" := by
  unfold postProcess strOfVal
  cases cfg.ignore_whitespace <;> cases cfg.ignore_case <;> rfl

theorem postProcess_nan (cfg : Config) : postProcess cfg .nan = "nan" := by
  unfold postProcess strOfVal
  cases cfg.ignore_whitespace <;> cases cfg.ignore_case <;> rfl

theorem postProcess_str_empty (cfg : Config) : postProcess cfg (.str "") = "" := by
  unfold postProcess strOfVal
  cases cfg.ignore_whitespace <;> cases cfg.ignore_case <;> rfl

theorem beq_symm {α : Type} [BEq α] [LawfulBEq α] (a b : α) : (a == b) = (b == a) := by
  by_cases h : a = b
  · subst h; rfl
  · rw [beq_eq_false_iff_ne.mpr h, beq_eq_false_iff_ne.mpr (Ne.symm h)]

theorem pyEqF_comm (x y : PyFloat) : pyEqF x y = pyEqF y x := by
  cases x with
  | nan => cases y <;> rfl
  | inf a =>
    cases y with
    | nan => rfl
    | inf b => exact beq_symm a b
    | finite m f => rfl
  | finite n e =>
    cases y with
    | nan => rfl
    | inf b => rfl
    | finite m f => exact beq_symm (n * 10 ^ f) (m * 10 ^ e)

/-! ## Claim theorems -/

/-- C1.  `safe_equals` is total: it returns a boolean for every pair of
scalar cell values and every configuration (there is no failing path in
the embedding), and — once the null-handling step has not already decided
the result — whenever `float()` would fail on either post-processed
string, the result is exactly the string equality of the post-processed
strings (the `except ValueError` fallthrough of lines 40-48; an empty
post-processed string, on which the code never even attempts the
conversion, degrades to the same string comparison). -/
theorem safe_equals_total_and_fallthrough :
    ∀ (cfg : Config) (a b : Value),
      (safe_equals cfg a b = true ∨ safe_equals cfg a b = false) ∧
      ((cfg.treat_nulls_equal && (pdIsna a || pdIsna b)) = false →
        (pyFloatParse (postProcess cfg a) = none ∨ pyFloatParse (postProcess cfg b) = none) →
        safe_equals cfg a b = (postProcess cfg a == postProcess cfg b)) := by
  intro cfg a b
  constructor
  · exact Bool.eq_false_or_eq_true (safe_equals cfg a b)
  · intro hg hp
    unfold safe_equals
    have hg1 : (cfg.treat_nulls_equal && (pdIsna a && pdIsna b)) = false := by
      revert hg
      cases cfg.treat_nulls_equal <;> cases pdIsna a <;> cases pdIsna b <;> decide
    simp only [hg1, hg, Bool.false_eq_true, if_false]
    rcases hp with hpa | hpb
    · have hta : tryNum (postProcess cfg a) = none ∨ tryNum (postProcess cfg a) = some .nan := by
        unfold tryNum
        by_cases he : postProcess cfg a = ""
        · rw [if_pos he]; exact Or.inr rfl
        · rw [if_neg he]; exact Or.inl hpa
      rcases hta with htn | htn
      · simp only [htn]
      · rcases htn2 : tryNum (postProcess cfg b) with _ | n2
        · simp only [htn, htn2]
        · simp only [htn, htn2]
          simp [pyIsnaF]
    · have htb : tryNum (postProcess cfg b) = none ∨ tryNum (postProcess cfg b) = some .nan := by
        unfold tryNum
        by_cases he : postProcess cfg b = ""
        · rw [if_pos he]; exact Or.inr rfl
        · rw [if_neg he]; exact Or.inl hpb
      rcases htn1 : tryNum (postProcess cfg a) with _ | n1
      · simp only [htn1]
      · rcases htb with htn | htn
        · simp only [htn1, htn]
        · simp only [htn1, htn]
          simp [pyIsnaF]

theorem safe_equals_total_and_fallthrough_witness :
    safe_equals defaultCfg (.str "12") (.str "12a") =
      (postProcess defaultCfg (.str "12") == postProcess defaultCfg (.str "12a")) :=
  (safe_equals_total_and_fallthrough defaultCfg (.str "12") (.str "12a")).2 (by decide)
    (Or.inr (by decide))

/-- C2 counterexample.  The post-processed strings `"nan"` and `"nan"`
both parse successfully as floats, but `safe_equals` returns `true` while
the claimed round-and-compare result is `false` (`float('nan') ==
float('nan')` is false in Python): the code's NaN guard on line 43 sends
NaN parses to string comparison. -/
theorem numeric_claim_nan_counterexample :
    pyFloatParse (postProcess defaultCfg (.str "nan")) = some .nan ∧
    pyEqF (pyRound defaultCfg.float_precision .nan) (pyRound defaultCfg.float_precision .nan) =
      false ∧
    safe_equals defaultCfg (.str "nan") (.str "nan") = true := by decide

/-- C2 (amended).  When both post-processed strings parse as floats that
are not NaN, `safe_equals` returns exactly the comparison of the two
values rounded to `float_precision` decimal digits; the two boundary
examples at precision 5 behave as stated. -/
theorem safe_equals_numeric_rounding :
    (∀ (cfg : Config) (a b : Value) (f1 f2 : PyFloat),
        pyFloatParse (postProcess cfg a) = some f1 →
        pyFloatParse (postProcess cfg b) = some f2 →
        pyIsnaF f1 = false → pyIsnaF f2 = false →
        safe_equals cfg a b =
          pyEqF (pyRound cfg.float_precision f1) (pyRound cfg.float_precision f2)) ∧
    safe_equals defaultCfg (.str "1.000001") (.str "1.000002") = true ∧
    safe_equals defaultCfg (.str "1.00001") (.str "1.00002") = false := by
  refine ⟨?_, by decide, by decide⟩
  intro cfg a b f1 f2 h1 h2 hn1 hn2
  have hna : pdIsna a = false := by
    cases a with
    | null =>
      rw [postProcess_null, pyFloatParse_nil] at h1
      cases h1
    | nan =>
      rw [postProcess_nan] at h1
      have hn : pyFloatParse "nan" = some PyFloat.nan := rfl
      rw [hn] at h1
      injection h1 with h1
      rw [← h1] at hn1
      cases hn1
    | bool b => rfl
    | int n => rfl
    | float m d => rfl
    | str s => rfl
    | datetime s => rfl
  have hnb : pdIsna b = false := by
    cases b with
    | null =>
      rw [postProcess_null, pyFloatParse_nil] at h2
      cases h2
    | nan =>
      rw [postProcess_nan] at h2
      have hn : pyFloatParse "nan" = some PyFloat.nan := rfl
      rw [hn] at h2
      injection h2 with h2
      rw [← h2] at hn2
      cases hn2
    | bool b => rfl
    | int n => rfl
    | float m d => rfl
    | str s => rfl
    | datetime s => rfl
  have hs1 : postProcess cfg a ≠ "" := by
    intro he
    rw [he, pyFloatParse_nil] at h1
    cases h1
  have hs2 : postProcess cfg b ≠ "" := by
    intro he
    rw [he, pyFloatParse_nil] at h2
    cases h2
  have ht1 : tryNum (postProcess cfg a) = some f1 := by
    unfold tryNum
    rw [if_neg hs1]
    exact h1
  have ht2 : tryNum (postProcess cfg b) = some f2 := by
    unfold tryNum
    rw [if_neg hs2]
    exact h2
  unfold safe_equals
  simp only [hna, hnb, Bool.and_false, Bool.or_self, Bool.and_self, Bool.false_eq_true, if_false,
    ht1, ht2, hn1, hn2, Bool.not_false, Bool.and_true, if_true]

theorem safe_equals_numeric_rounding_witness :
    safe_equals defaultCfg (.str "2") (.str "2.0") =
      pyEqF (pyRound 5 (.finite 2 0)) (pyRound 5 (.finite 20 1)) :=
  safe_equals_numeric_rounding.1 defaultCfg (.str "2") (.str "2.0") (.finite 2 0) (.finite 20 1)
    (by decide) (by decide) rfl rfl

/-- C5.  `safe_equals` is symmetric in its two value arguments for every
configuration: every step (null guard, post-processing, numeric attempt,
string fallback) treats the two sides alike. -/
theorem safe_equals_symm :
    ∀ (cfg : Config) (a b : Value), safe_equals cfg a b = safe_equals cfg b a := by
  intro cfg a b
  unfold safe_equals
  rw [show (pdIsna a && pdIsna b) = (pdIsna b && pdIsna a) from Bool.and_comm ..,
    show (pdIsna a || pdIsna b) = (pdIsna b || pdIsna a) from Bool.or_comm ..]
  by_cases hg1 : (cfg.treat_nulls_equal && (pdIsna b && pdIsna a)) = true
  · rw [if_pos hg1, if_pos hg1]
  · rw [if_neg hg1, if_neg hg1]
    by_cases hg2 : (cfg.treat_nulls_equal && (pdIsna b || pdIsna a)) = true
    · rw [if_pos hg2, if_pos hg2]
    · rw [if_neg hg2, if_neg hg2]
      rcases h1 : tryNum (postProcess cfg a) with _ | n1 <;>
        rcases h2 : tryNum (postProcess cfg b) with _ | n2 <;>
          simp only [h1, h2]
      · exact beq_symm ..
      · exact beq_symm ..
      · exact beq_symm ..
      · rw [show (!pyIsnaF n1 && !pyIsnaF n2) = (!pyIsnaF n2 && !pyIsnaF n1) from Bool.and_comm ..]
        by_cases hc : (!pyIsnaF n2 && !pyIsnaF n1) = true
        · rw [if_pos hc, if_pos hc]
          exact pyEqF_comm ..
        · rw [if_neg hc, if_neg hc]
          exact beq_symm ..

/-- C6.  With `treat_nulls_equal` on, two null-like values compare equal
and a null-like value never equals a non-null-like one, on either side
(lines 23-27). -/
theorem treat_nulls_equal_policy (cfg : Config) (h : cfg.treat_nulls_equal = true) :
    safe_equals cfg .null .null = true ∧
    ∀ v : Value, pdIsna v = false →
      safe_equals cfg .null v = false ∧ safe_equals cfg v .null = false := by
  refine ⟨?_, ?_⟩
  · simp [safe_equals, h, pdIsna]
  · intro v hv
    constructor <;> simp [safe_equals, h, pdIsna_null, hv]

theorem treat_nulls_equal_policy_witness :
    safe_equals defaultCfg .null .null = true ∧
    safe_equals defaultCfg .null (.str "x") = false :=
  ⟨(treat_nulls_equal_policy defaultCfg rfl).1,
   ((treat_nulls_equal_policy defaultCfg rfl).2 (.str "x") rfl).1⟩

/-- C10.  With `treat_nulls_equal` on, an empty string is not null-like:
`pd.isna("")` is false, so `""` never equals a truly missing value, while
two empty strings compare equal through the string path. -/
theorem empty_string_not_null_like (cfg : Config) (h : cfg.treat_nulls_equal = true) :
    safe_equals cfg (.str "") .null = false ∧
    safe_equals cfg .null (.str "") = false ∧
    safe_equals cfg (.str "") (.str "") = true := by
  refine ⟨?_, ?_, ?_⟩
  · simp [safe_equals, h, pdIsna]
  · simp [safe_equals, h, pdIsna]
  · simp [safe_equals, pdIsna, postProcess_str_empty, tryNum, pyIsnaF]

theorem empty_string_not_null_like_witness :
    safe_equals defaultCfg (.str "") .null = false ∧
    safe_equals defaultCfg .null (.str "") = false ∧
    safe_equals defaultCfg (.str "") (.str "") = true :=
  empty_string_not_null_like defaultCfg rfl

/-- Rows used by the sort-stability witness. -/
def rowK1a : Row := [("id", .int 1), ("v", .str "a")]

/-- Second row with the same key value as `rowK1a`. -/
def rowK1b : Row := [("id", .int 1), ("v", .str "b")]

/-- A row with a different key value. -/
def rowK2 : Row := [("id", .int 2), ("v", .str "c")]

/-- Input row list for the sort-stability witness. -/
def cexRows : List Row := [rowK2, rowK1a, rowK1b]

/-- C3.  The row alignment as the specification prescribes it, proved of
the modelled `sortRows`: the sorted rows are a permutation of the input,
sorted ascending by the lexicographic key order on the ordered key-column
list; the cell ordering puts every null-like key value after every
ordinary value (pandas `na_position='last'` default); and the sort is
stable — two rows with equivalent key tuples keep their input order.
Each dataset is sorted independently by one call of this function.  The
program guarantees the stability clause only for multi-column key lists
(pandas' stable lexsort); its single-column path defaults to numpy's
`kind='quicksort'`, which is documented as not stable, so on a
single-column key the code falls short of this specified behaviour (see
`sortRows`). -/
theorem sort_values_stable_ascending_nulls_last (sort_cols : List String) (l : List Row) :
    List.Perm (sortRows sort_cols l) l ∧
    List.Sorted (fun r1 r2 => keyLe sort_cols r1 r2 = true) (sortRows sort_cols l) ∧
    (∀ u v : Value, pdIsna u = false → pdIsna v = true → cmpCell u v = .lt) ∧
    (∀ r1 r2 : Row, List.Sublist [r1, r2] l → keyCmp sort_cols r1 r2 = .eq →
      List.Sublist [r1, r2] (sortRows sort_cols l)) := by
  refine ⟨sortRows_perm .., sortRows_sorted .., ?_, ?_⟩
  · intro u v hu hv
    cases u <;> cases v <;> first | rfl | simp [pdIsna] at hu hv
  · intro r1 r2 hsub heq
    exact sortRows_stable sort_cols ((keyLe_iff ..).mpr (by rw [heq]; decide)) hsub

theorem sort_values_stable_ascending_nulls_last_witness :
    List.Sublist [rowK1a, rowK1b] (sortRows ["id"] cexRows) ∧
    cmpCell (.int 1) .null = .lt := by
  refine ⟨(sort_values_stable_ascending_nulls_last ["id"] cexRows).2.2.2 rowK1a rowK1b
      ?_ (by decide),
    (sort_values_stable_ascending_nulls_last ["id"] cexRows).2.2.1 (.int 1) .null rfl rfl⟩
  exact List.Sublist.cons rowK2 (List.Sublist.refl _)

/-- C4 counterexample.  `dfCexA` and `dfCexB` hold identical row sets in
different input orders, the key column is the same, yet the run produces
two mismatch records: the two rows share the key value `id = 1`, the
stable sort preserves each file's own order of that tie, and the `v`
values are compared crosswise.  Sorting by key does not make the result
independent of input order when key tuples repeat. -/
theorem order_independence_counterexample :
    List.Perm dfCexA.rows dfCexB.rows ∧
    (runValidator defaultCfg ["id"] dfCexA dfCexB).map (fun o => o.mismatch_report.length) =
      .ok 2 := by
  constructor
  · decide
  · rfl

/-- C4 (amended).  If additionally the key tuples are pairwise
non-equivalent within the dataset (no duplicate keys), then two datasets
holding the same row multiset in any input orders compare with zero
mismatch records, for every configuration: with duplicate-free keys the
stable sort result is unique, so both sides sort to the same row list,
and `safe_equals` is reflexive. -/
theorem order_independence_unique_keys (cfg : Config) (sort_cols : List String)
    (df_old df_new : Dataset)
    (hk : sort_cols ≠ [])
    (hA : ∀ c ∈ sort_cols, df_old.cols.contains c = true)
    (hB : ∀ c ∈ sort_cols, df_new.cols.contains c = true)
    (hperm : List.Perm df_old.rows df_new.rows)
    (hpw : df_old.rows.Pairwise (fun r1 r2 => keyCmp sort_cols r1 r2 ≠ .eq)) :
    ∃ out, runValidator cfg sort_cols df_old df_new = .ok out ∧
      out.mismatch_report = [] := by
  have hsA := sortRows_sorted sort_cols df_old.rows
  have hsB := sortRows_sorted sort_cols df_new.rows
  have hpermAB : List.Perm (sortRows sort_cols df_old.rows)
      (sortRows sort_cols df_new.rows) :=
    ((sortRows_perm sort_cols df_old.rows).trans hperm).trans
      (sortRows_perm sort_cols df_new.rows).symm
  have hpwA : (sortRows sort_cols df_old.rows).Pairwise
      (fun r1 r2 => keyCmp sort_cols r1 r2 ≠ .eq) :=
    ((sortRows_perm sort_cols df_old.rows).pairwise_iff
      (fun h => keyNe_symm sort_cols h)).mpr hpw
  have heq : sortRows sort_cols df_old.rows = sortRows sort_cols df_new.rows :=
    sorted_perm_pairwise_eq sort_cols _ _ hpermAB hsA hsB hpwA
  have hloop : loopAux cfg sort_cols (commonCols df_old df_new)
      (sortRows sort_cols df_old.rows) (sortRows sort_cols df_new.rows)
      (min (sortRows sort_cols df_old.rows).length
        (sortRows sort_cols df_new.rows).length) 0 = some [] := by
    rw [← heq]
    exact loopAux_self cfg sort_cols (commonCols df_old df_new) _ _ 0 (by simp)
  rw [runValidator_reaches_loop cfg sort_cols df_old df_new hk hA hB, hloop]
  exact ⟨_, rfl, rfl⟩

/-- Baseline of the unique-key witness: two rows, distinct keys, out of
order. -/
def dfUKA : Dataset :=
  { cols := ["id", "v"],
    rows := [[("id", .int 2), ("v", .str "y")], [("id", .int 1), ("v", .str "x")]] }

/-- The same rows as `dfUKA` in the opposite order. -/
def dfUKB : Dataset :=
  { cols := ["id", "v"],
    rows := [[("id", .int 1), ("v", .str "x")], [("id", .int 2), ("v", .str "y")]] }

theorem order_independence_unique_keys_witness :
    ∃ out, runValidator defaultCfg ["id"] dfUKA dfUKB = .ok out ∧
      out.mismatch_report = [] :=
  order_independence_unique_keys defaultCfg ["id"] dfUKA dfUKB (by decide) (by decide)
    (by decide) (by decide) (by decide)

/-- C7.  When the two datasets have different row counts and the run
reaches the comparison (non-empty key selection, key columns present in
both schemas), the run still succeeds — `rowCountWarning` is set (the
warning of lines 91/92, not a mismatch record), the loop never makes an
out-of-range `.loc` access (the run does not end in `indexError`), and
every mismatch record sits at a 1-based row position of at most
`min(len(A), len(B))`: rows beyond the shorter dataset are never compared
cell-by-cell. -/
theorem row_count_warning_and_min_rows (cfg : Config) (sort_cols : List String)
    (df_old df_new : Dataset)
    (hk : sort_cols ≠ [])
    (hA : ∀ c ∈ sort_cols, df_old.cols.contains c = true)
    (hB : ∀ c ∈ sort_cols, df_new.cols.contains c = true)
    (hlen : df_old.rows.length ≠ df_new.rows.length) :
    ∃ out, runValidator cfg sort_cols df_old df_new = .ok out ∧
      out.rowCountWarning = true ∧
      ∀ r ∈ out.mismatch_report,
        1 ≤ r.row ∧ r.row ≤ min df_old.rows.length df_new.rows.length := by
  have hlA : (sortRows sort_cols df_old.rows).length = df_old.rows.length :=
    (sortRows_perm sort_cols df_old.rows).length_eq
  have hlB : (sortRows sort_cols df_new.rows).length = df_new.rows.length :=
    (sortRows_perm sort_cols df_new.rows).length_eq
  obtain ⟨rs, hrs, hprop⟩ := loopAux_spec cfg sort_cols (commonCols df_old df_new)
    (sortRows sort_cols df_old.rows) (sortRows sort_cols df_new.rows)
    (min (sortRows sort_cols df_old.rows).length
      (sortRows sort_cols df_new.rows).length) 0 (by omega)
  rw [runValidator_reaches_loop cfg sort_cols df_old df_new hk hA hB, hrs]
  refine ⟨_, rfl, ?_, ?_⟩
  · show ((sortRows sort_cols df_old.rows).length !=
      (sortRows sort_cols df_new.rows).length) = true
    rw [hlA, hlB]
    exact bne_iff_ne.mpr hlen
  · intro r hr
    obtain ⟨h1, h2, _⟩ := hprop r hr
    rw [hlA, hlB] at h2
    exact ⟨by omega, by omega⟩

/-- Baseline of the row-count witness: two rows. -/
def dfLenA : Dataset :=
  { cols := ["id", "v"],
    rows := [[("id", .int 1), ("v", .str "x")], [("id", .int 2), ("v", .str "y")]] }

/-- Candidate of the row-count witness: one row. -/
def dfLenB : Dataset :=
  { cols := ["id", "v"],
    rows := [[("id", .int 1), ("v", .str "z")]] }

theorem row_count_warning_and_min_rows_witness :
    ∃ out, runValidator defaultCfg ["id"] dfLenA dfLenB = .ok out ∧
      out.rowCountWarning = true ∧
      ∀ r ∈ out.mismatch_report,
        1 ≤ r.row ∧ r.row ≤ min dfLenA.rows.length dfLenB.rows.length :=
  row_count_warning_and_min_rows defaultCfg ["id"] dfLenA dfLenB (by decide) (by decide)
    (by decide) (by decide)

/-- C8.  Every record of a successful run's mismatch report has a
non-empty `fieldDiffs` (an all-equal row position emits no record); its
`fieldDiffs` is exactly the list of common columns on which `safe_equals`
failed for that aligned row pair, with the old/new cell values read from
the two sorted rows; and its `keyValues` are the key-column values of the
baseline row at that position. -/
theorem mismatch_record_invariants (cfg : Config) (sort_cols : List String)
    (df_old df_new : Dataset) (out : Output)
    (hrun : runValidator cfg sort_cols df_old df_new = .ok out) :
    ∀ r ∈ out.mismatch_report,
      r.fieldDiffs ≠ [] ∧
      ∃ ra rb,
        (sortRows sort_cols df_old.rows)[r.row - 1]? = some ra ∧
        (sortRows sort_cols df_new.rows)[r.row - 1]? = some rb ∧
        r.keyValues = sort_cols.map (fun c => (c, rowGet ra c)) ∧
        r.fieldDiffs = rowDiffs cfg (commonCols df_old df_new) ra rb ∧
        ∀ x ∈ r.fieldDiffs,
          x.1 ∈ commonCols df_old df_new ∧
          safe_equals cfg (rowGet ra x.1) (rowGet rb x.1) = false ∧
          x.2.1 = rowGet ra x.1 ∧ x.2.2 = rowGet rb x.1 := by
  have hk : sort_cols ≠ [] := by
    intro h
    rw [h] at hrun
    simp [runValidator] at hrun
  have hA : ∀ c ∈ sort_cols, df_old.cols.contains c = true := by
    intro c hc
    by_contra hcc
    have hcf : df_old.cols.contains c = false := Bool.eq_false_iff.mpr hcc
    have hs : (sort_cols.find? (fun c => !(df_old.cols.contains c))).isSome := by
      rw [List.find?_isSome]
      exact ⟨c, hc, by rw [hcf]; rfl⟩
    obtain ⟨c', hc'⟩ := Option.isSome_iff_exists.mp hs
    rw [runValidator, if_neg (by rw [isEmpty_false_of_ne_nil hk]; decide)] at hrun
    rw [show sortValues df_old sort_cols = .error (.keyError c') from
      by rw [sortValues, hc'], except_error_bind] at hrun
    cases hrun
  have hB : ∀ c ∈ sort_cols, df_new.cols.contains c = true := by
    intro c hc
    by_contra hcc
    have hcf : df_new.cols.contains c = false := Bool.eq_false_iff.mpr hcc
    have hs : (sort_cols.find? (fun c => !(df_new.cols.contains c))).isSome := by
      rw [List.find?_isSome]
      exact ⟨c, hc, by rw [hcf]; rfl⟩
    obtain ⟨c', hc'⟩ := Option.isSome_iff_exists.mp hs
    rw [runValidator, if_neg (by rw [isEmpty_false_of_ne_nil hk]; decide)] at hrun
    rw [sortValues_ok hA, except_ok_bind] at hrun
    rw [show sortValues df_new sort_cols = .error (.keyError c') from
      by rw [sortValues, hc'], except_error_bind] at hrun
    cases hrun
  rw [runValidator_reaches_loop cfg sort_cols df_old df_new hk hA hB] at hrun
  obtain ⟨rs, hrs, hprop⟩ := loopAux_spec cfg sort_cols (commonCols df_old df_new)
    (sortRows sort_cols df_old.rows) (sortRows sort_cols df_new.rows)
    (min (sortRows sort_cols df_old.rows).length
      (sortRows sort_cols df_new.rows).length) 0 (by omega)
  rw [hrs] at hrun
  injection hrun with hrun
  subst hrun
  intro r hr
  obtain ⟨_, _, ra, rb, hga, hgb, hkv, hfd, hne⟩ := hprop r hr
  refine ⟨hne, ra, rb, hga, hgb, hkv, hfd, ?_⟩
  intro x hx
  rw [hfd] at hx
  obtain ⟨c, vo, vn⟩ := x
  obtain ⟨h1, h2, h3, h4⟩ := mem_rowDiffs.mp hx
  exact ⟨h1, h2, h3, h4⟩

/-- The output of the run of `dfCexA` against `dfCexB`, used as the C8
witness run. -/
def outCexVal : Output :=
  { rowCountWarning := false,
    mismatch_report :=
      [{ row := 1, keyValues := [("id", .int 1)],
         fieldDiffs := [("v", .str "a", .str "b")] },
       { row := 2, keyValues := [("id", .int 1)],
         fieldDiffs := [("v", .str "b", .str "a")] }],
    mismatched_columns := ["v"] }

/-- The first mismatch record of `outCexVal`. -/
def recCexHead : MismatchRecord :=
  { row := 1, keyValues := [("id", .int 1)],
    fieldDiffs := [("v", .str "a", .str "b")] }

theorem mismatch_record_invariants_witness :
    recCexHead.fieldDiffs ≠ [] ∧
    ∃ ra rb,
      (sortRows ["id"] dfCexA.rows)[recCexHead.row - 1]? = some ra ∧
      (sortRows ["id"] dfCexB.rows)[recCexHead.row - 1]? = some rb ∧
      recCexHead.keyValues = ["id"].map (fun c => (c, rowGet ra c)) ∧
      recCexHead.fieldDiffs = rowDiffs defaultCfg (commonCols dfCexA dfCexB) ra rb ∧
      ∀ x ∈ recCexHead.fieldDiffs,
        x.1 ∈ commonCols dfCexA dfCexB ∧
        safe_equals defaultCfg (rowGet ra x.1) (rowGet rb x.1) = false ∧
        x.2.1 = rowGet ra x.1 ∧ x.2.2 = rowGet rb x.1 :=
  mismatch_record_invariants defaultCfg ["id"] dfCexA dfCexB outCexVal rfl
    recCexHead (by decide)

/-- C9.  An empty key selection (line 174/175) or a key column absent
from either dataset's schema (a pandas `KeyError` from `sort_values` on
line 85/86) rejects the run before any row is compared: the run yields an
error and no `Output` is produced. -/
theorem config_error_rejects_run (cfg : Config) (sort_cols : List String)
    (df_old df_new : Dataset)
    (h : sort_cols = [] ∨ ∃ c ∈ sort_cols,
        df_old.cols.contains c = false ∨ df_new.cols.contains c = false) :
    ∃ e, runValidator cfg sort_cols df_old df_new = .error e := by
  rcases h with rfl | ⟨c, hc, hmiss⟩
  · exact ⟨.noKeySelected, rfl⟩
  · have hk : sort_cols ≠ [] := by
      intro hnil
      rw [hnil] at hc
      exact List.not_mem_nil c hc
    rcases hfA : sort_cols.find? (fun c => !(df_old.cols.contains c)) with _ | c'
    · have hallA : ∀ x ∈ sort_cols, df_old.cols.contains x = true := by
        intro x hx
        have hnx := List.find?_eq_none.mp hfA x hx
        cases hcx : df_old.cols.contains x
        · rw [hcx] at hnx
          exact absurd rfl hnx
        · rfl
      have hmB : df_new.cols.contains c = false := by
        rcases hmiss with hm | hm
        · rw [hallA c hc] at hm
          cases hm
        · exact hm
      have hs : (sort_cols.find? (fun c => !(df_new.cols.contains c))).isSome := by
        rw [List.find?_isSome]
        exact ⟨c, hc, by rw [hmB]; rfl⟩
      obtain ⟨c'', hfB⟩ := Option.isSome_iff_exists.mp hs
      refine ⟨.keyError c'', ?_⟩
      rw [runValidator, if_neg (by rw [isEmpty_false_of_ne_nil hk]; decide)]
      rw [sortValues_ok hallA, except_ok_bind]
      rw [show sortValues df_new sort_cols = .error (.keyError c'') from
        by rw [sortValues, hfB]]
      rfl
    · refine ⟨.keyError c', ?_⟩
      rw [runValidator, if_neg (by rw [isEmpty_false_of_ne_nil hk]; decide)]
      rw [show sortValues df_old sort_cols = .error (.keyError c') from
        by rw [sortValues, hfA]]
      rfl

/-- A dataset whose schema lacks the `"id"` column. -/
def dfNoId : Dataset := { cols := ["k"], rows := [[("k", .int 1)]] }

theorem config_error_rejects_run_witness :
    ∃ e, runValidator defaultCfg ["id"] dfNoId dfCexB = .error e :=
  config_error_rejects_run defaultCfg ["id"] dfNoId dfCexB
    (Or.inr ⟨"id", by decide, Or.inl (by decide)⟩)

end StoreProcValidator
